import Mathlib

/-!
Verification of the wildfire-detection acquisition-and-inference pipeline
(`app/api/sentinel-image/route.ts` and the page component).  Strings are
modelled as `List Char`, JavaScript numbers as `Option ℚ` (`none` = NaN;
the claims never exercise infinities or values beyond double precision),
and the filesystem cache directory as an association list of
(filename, bytes) entries.
-/

/-- A JavaScript number after `ToNumber` coercion: `none` models NaN
(which is what a missing request field or a non-numeric string coerces
to at the `Math.min`/`Math.max` call sites). -/
abbrev JSNum : Type := Option ℚ

/-- `Math.min`: NaN-propagating minimum. -/
def jsMin (a b : JSNum) : JSNum :=
  match a, b with
  | some x, some y => some (min x y)
  | _, _ => none

/-- `Math.max`: NaN-propagating maximum. -/
def jsMax (a b : JSNum) : JSNum :=
  match a, b with
  | some x, some y => some (max x y)
  | _, _ => none

/-! ### JavaScript string primitives -/

/-- `s.startsWith(p)` on `List Char`. -/
def strStartsWith : List Char → List Char → Bool
  | _, [] => true
  | [], _ :: _ => false
  | c :: cs, p :: ps => c = p && strStartsWith cs ps

/-- `s.endsWith(p)` on `List Char`. -/
def strEndsWith (s p : List Char) : Bool :=
  strStartsWith s.reverse p.reverse

/-- `s.replace(pat, repl)` with a string pattern: replaces the FIRST
occurrence only (JavaScript semantics for string patterns; the source
only calls this with the non-empty patterns "true-color-" and ".png"). -/
def replaceFirst (pat repl : List Char) : List Char → List Char
  | [] => []
  | c :: cs =>
      if strStartsWith (c :: cs) pat then repl ++ (c :: cs).drop pat.length
      else c :: replaceFirst pat repl cs

/-- `s.split(sep)` for a single-character separator, JavaScript
semantics: the empty string splits to `[""]`. -/
def jsSplit (sep : Char) : List Char → List (List Char)
  | [] => [[]]
  | c :: cs =>
      if c = sep then [] :: jsSplit sep cs
      else
        match jsSplit sep cs with
        | h :: t => (c :: h) :: t
        | [] => [[c]]

/-! ### Decimal digits and JavaScript `parseInt` -/

def isDigit (c : Char) : Bool := '0' ≤ c && c ≤ '9'

def digitVal (c : Char) : Nat := c.toNat - 48

def digitChar : Nat → Char
  | 0 => '0' | 1 => '1' | 2 => '2' | 3 => '3' | 4 => '4'
  | 5 => '5' | 6 => '6' | 7 => '7' | 8 => '8' | _ => '9'

/-- Fuel-based decimal rendering of a natural number (kernel-reducible). -/
def natToCharsAux : Nat → Nat → List Char → List Char
  | 0, _, acc => acc
  | fuel + 1, n, acc =>
      if n < 10 then digitChar n :: acc
      else natToCharsAux fuel (n / 10) (digitChar (n % 10) :: acc)

/-- Decimal rendering of a natural number, as JavaScript renders an
integral Number (within double precision). -/
def natToChars (n : Nat) : List Char := natToCharsAux (n + 1) n []

/-- Recursive reference form of `natToChars`, convenient for induction. -/
def natChars (n : Nat) : List Char :=
  if n < 10 then [digitChar n] else natChars (n / 10) ++ [digitChar (n % 10)]
decreasing_by exact Nat.div_lt_self (by omega) (by omega)

/-- Template-literal rendering of an integer-valued Number. -/
def intToChars (k : Int) : List Char :=
  if k < 0 then '-' :: natToChars k.natAbs else natToChars k.toNat

/-- The whitespace characters `parseInt` skips (ASCII subset; the cache
filenames never contain the remaining Unicode space characters). -/
def jsWhitespace : List Char := [' ', '\t', '\n', '\r', '\x0b', '\x0c']

def isHexDigit (c : Char) : Bool :=
  isDigit c || ('a' ≤ c && c ≤ 'f') || ('A' ≤ c && c ≤ 'F')

def hexVal (c : Char) : Nat :=
  if isDigit c then c.toNat - 48
  else if 'a' ≤ c && c ≤ 'f' then c.toNat - 87
  else c.toNat - 55

/-- Longest prefix of digits, as a value, `none` when there is none. -/
def parseDigits (isD : Char → Bool) (val : Char → Nat) (radix : Nat)
    (s : List Char) : Option Nat :=
  let ds := s.takeWhile isD
  if ds.isEmpty then none
  else some (ds.foldl (fun a c => radix * a + val c) 0)

/-- Does the string begin with the hexadecimal marker `0x`/`0X`? -/
def hexMark : List Char → Bool
  | c0 :: c1 :: _ => c0 = '0' && (c1 = 'x' || c1 = 'X')
  | _ => false

def parseIntCore (sign : Int) (s : List Char) : Option Int :=
  if hexMark s then
    (parseDigits isHexDigit hexVal 16 (s.drop 2)).map (fun n => sign * (n : Int))
  else
    (parseDigits isDigit digitVal 10 s).map (fun n => sign * (n : Int))

def parseSigned : List Char → Option Int
  | [] => none
  | c :: rest =>
      if c = '-' then parseIntCore (-1) rest
      else if c = '+' then parseIntCore 1 rest
      else parseIntCore 1 (c :: rest)

/-- JavaScript `parseInt(s)` with an unspecified radix: skip whitespace,
optional sign, `0x` hex marker, then the longest digit prefix; `none`
models NaN. -/
def parseIntJS (s : List Char) : Option Int :=
  parseSigned (s.dropWhile (fun c => jsWhitespace.contains c))

/-! ### Base64 (Node `Buffer` semantics on well-formed data) -/

def b64Alphabet : List Char :=
  ['A', 'B', 'C', 'D', 'E', 'F', 'G', 'H', 'I', 'J', 'K', 'L', 'M',
   'N', 'O', 'P', 'Q', 'R', 'S', 'T', 'U', 'V', 'W', 'X', 'Y', 'Z',
   'a', 'b', 'c', 'd', 'e', 'f', 'g', 'h', 'i', 'j', 'k', 'l', 'm',
   'n', 'o', 'p', 'q', 'r', 's', 't', 'u', 'v', 'w', 'x', 'y', 'z',
   '0', '1', '2', '3', '4', '5', '6', '7', '8', '9', '+', '/']

def b64Char (n : Nat) : Char := b64Alphabet.getD n 'A'

def b64Val (c : Char) : Nat := b64Alphabet.indexOf c

/-- `Buffer.from(bytes).toString("base64")`: standard base64 with
padding, bytes taken three at a time. -/
def b64encode : List Nat → List Char
  | [] => []
  | [a] => [b64Char (a / 4), b64Char (a % 4 * 16), '=', '=']
  | [a, b] => [b64Char (a / 4), b64Char (a % 4 * 16 + b / 16), b64Char (b % 16 * 4), '=']
  | a :: b :: c :: rest =>
      b64Char (a / 4) :: b64Char (a % 4 * 16 + b / 16) ::
      b64Char (b % 16 * 4 + c / 64) :: b64Char (c % 64) :: b64encode rest

/-- `Buffer.from(s, "base64")` on well-formed base64: four characters
at a time, honouring `=` padding. -/
def b64decode : List Char → List Nat
  | w :: x :: y :: z :: rest =>
      if y = '=' then [b64Val w * 4 + b64Val x / 16]
      else if z = '=' then
        [b64Val w * 4 + b64Val x / 16, b64Val x % 16 * 16 + b64Val y / 4]
      else
        (b64Val w * 4 + b64Val x / 16) :: (b64Val x % 16 * 16 + b64Val y / 4) ::
        (b64Val y % 4 * 64 + b64Val z) :: b64decode rest
  | _ => []

/-! ### The cache: `getNextFilename` and `downloadImage` -/

/-- The filename stem `"true-color-"`. -/
def namePre : List Char := "true-color-".toList

/-- The filename extension `".png"`. -/
def nameExt : List Char := ".png".toList

/-- The filter `f.startsWith("true-color-") && f.endsWith(".png")`. -/
def cacheMatch (f : List Char) : Bool :=
  strStartsWith f namePre && strEndsWith f nameExt

/-- The map step `parseInt(f.replace("true-color-", "").replace(".png", ""))`;
`none` models NaN. -/
def suffixNum (f : List Char) : Option Int :=
  parseIntJS (replaceFirst nameExt [] (replaceFirst namePre [] f))

/-- The `numbers` array: suffixes of matching files, NaN entries dropped
(the source maps then filters `!isNaN`; fused here into a `filterMap`). -/
def cacheNumbers (files : List (List Char)) : List Int :=
  (files.filter cacheMatch).filterMap suffixNum

/-- `Math.max(...numbers)` for the non-empty case (the source guards
emptiness before calling it). -/
def listMax : List Int → Int
  | [] => 0
  | [x] => x
  | x :: xs => max x (listMax xs)

/-- `numbers.length > 0 ? Math.max(...numbers) + 1 : 1`. -/
def nextIndex (files : List (List Char)) : Int :=
  if (cacheNumbers files).isEmpty then 1 else listMax (cacheNumbers files) + 1

/-- The template literal `true-color-${next}.png`. -/
def mkName (k : Int) : List Char := namePre ++ intToChars k ++ nameExt

/-- `getNextFilename`, as a function of the directory listing. -/
def getNextFilename (files : List (List Char)) : List Char :=
  mkName (nextIndex files)

/-- A cache directory entry: filename and file bytes. -/
abbrev CacheEntry : Type := List Char × List Nat

/-- `fs.writeFileSync`: overwrite the entry if the name exists,
otherwise append a new entry. -/
def writeFile (dir : List CacheEntry) (name : List Char) (content : List Nat) :
    List CacheEntry :=
  if dir.any (fun e => e.1 = name) then
    dir.map (fun e => if e.1 = name then (name, content) else e)
  else dir ++ [(name, content)]

/-- The decode step of `downloadImage`:
`Buffer.from(imageBase64.split(",")[1], "base64")`. -/
def decodeDataUri (imageBase64 : List Char) : List Nat :=
  b64decode ((jsSplit ',' imageBase64).getD 1 [])

/-- `downloadImage`: decode the data URI, write the bytes under
`filename`, return the updated directory and `/sentinel/<filename>`. -/
def downloadImage (imageBase64 : List Char) (filename : List Char)
    (dir : List CacheEntry) : List CacheEntry × List Char :=
  (writeFile dir filename (decodeDataUri imageBase64),
   "/sentinel/".toList ++ filename)

/-! ### The `POST` route handler -/

/-- The data-URI head prepended by `fetchImage`. -/
def dataUriHead : List Char := "data:image/png;base64,".toList

/-- `fetchImage`'s result for given provider behaviour: the data URI on
success, the provider's error body (thrown, then caught) otherwise. -/
structure ProviderEnv where
  /-- The `access_token` field of the parsed token response
  (`none` when the field is absent). -/
  accessToken : Option (List Char)
  /-- `res.ok` of the process-API response. -/
  processOk : Bool
  /-- `await res.text()` when the process response is not ok. -/
  processErrorBody : List Char
  /-- The raw image bytes when the process response is ok. -/
  processBytes : List Nat

/-- The body `fetchImage` returns or throws. -/
def fetchImage (env : ProviderEnv) : Except (List Char) (List Char) :=
  if env.processOk then .ok (dataUriHead ++ b64encode env.processBytes)
  else .error env.processErrorBody

/-- The coordinate payload of a request, after JSON parsing and
`ToNumber` coercion at the `Math.min`/`Math.max` call sites (`none`
covers both a missing field and a non-numeric string). -/
structure SentinelRequest where
  lat1 : JSNum
  lon1 : JSNum
  lat2 : JSNum
  lon2 : JSNum

/-- Lines 48-52 of the route: per-axis min/max and the bbox array. -/
def bboxOf (lat1 lon1 lat2 lon2 : JSNum) : List JSNum :=
  [jsMin lon1 lon2, jsMin lat1 lat2, jsMax lon1 lon2, jsMax lat1 lat2]

/-- Outbound effects of one handler run, in order. -/
inductive Event where
  | tokenReq
  | processReq
  | fileWrite
deriving DecidableEq

/-- The JSON response of the route: success payload, or the
`{ error: err.message }` body produced by the catch-all. -/
inductive ApiResponse where
  | ok (trueColorUrl filename : List Char) (bbox : List JSNum)
  | jsError (msg : List Char)
deriving DecidableEq

/-- Message of the `Error` thrown when `access_token` is falsy. -/
def authFailMsg : List Char := "Failed to authenticate with SentinelHub".toList

/-- The `POST` handler: normalize the bbox, exchange the token, fetch
the image, allocate the next filename, persist, respond.  Returns the
response, the trace of outbound effects, and the updated directory. -/
def POST (req : SentinelRequest) (env : ProviderEnv) (dir : List CacheEntry) :
    ApiResponse × List Event × List CacheEntry :=
  let bbox := bboxOf req.lat1 req.lon1 req.lat2 req.lon2
  match env.accessToken with
  | none => (.jsError authFailMsg, [.tokenReq], dir)
  | some tok =>
      if tok = [] then (.jsError authFailMsg, [.tokenReq], dir)
      else
        match fetchImage env with
        | .error msg => (.jsError msg, [.tokenReq, .processReq], dir)
        | .ok dataUri =>
            let filename := getNextFilename (dir.map Prod.fst)
            let wr := downloadImage dataUri filename dir
            (.ok wr.2 filename bbox, [.tokenReq, .processReq, .fileWrite], wr.1)

/-! ### The page component (client) -/

/-- The guard at the top of `fetchSentinelImage`: the request is sent
iff no coordinate field is the empty (falsy) string. -/
def fetchSentinelImageSends (lat1 lon1 lat2 lon2 : List Char) : Bool :=
  !(lat1.isEmpty || lon1.isEmpty || lat2.isEmpty || lon2.isEmpty)

/-- The parsed JSON body of a `/predict` response; every field optional
so absent fields are representable. -/
structure PredictBody where
  image_used : Option (List Char) := none
  checkpoint : Option (List Char) := none
  probability : Option ℚ := none
  prediction : Option Int := none
  label : Option (List Char) := none
  threshold : Option ℚ := none
  error : Option (List Char) := none
deriving DecidableEq

/-- The body with every field absent (the JSON object `\x7b\x7d`). -/
def emptyBody : PredictBody := {}

/-- Message set by the catch block of `runWildfireDetection`. -/
def connectFailMsg : List Char := "Failed to connect to prediction server".toList

/-- `runWildfireDetection`: if no image URL is present, alert and leave
the result unset; otherwise `setResult(await res.json())`, falling back
to the connect-failure body when the fetch throws or the body is not
JSON (`body = none`).  `statusOk` is `res.ok`; the source never reads
it. -/
def runWildfireDetection (hasImageUrl : Bool) (_statusOk : Bool)
    (body : Option PredictBody) : Option PredictBody :=
  if !hasImageUrl then none
  else
    match body with
    | some d => some d
    | none => some { emptyBody with error := some connectFailMsg }

/-! ### Derived definitions used in claim statements -/

/-- The integer suffix of a file that matches the
`true-color-<n>.png` naming convention (`none` for non-matching
files and for middles `parseInt` cannot parse). -/
def fileSuffix (f : List Char) : Option Int :=
  if cacheMatch f then suffixNum f else none

/-- The decimal value of a digit string. -/
def decVal (ds : List Char) : Nat :=
  ds.foldl (fun a c => 10 * a + digitVal c) 0

/-- The sample classifier response of the spec:
probability 0.92, prediction 1, label "Wildfire", threshold 0.5. -/
def wildfireVerdict : PredictBody :=
  { image_used := some "/sentinel/true-color-1.png".toList,
    checkpoint := some "wildfirenet".toList,
    probability := some (92 / 100),
    prediction := some 1,
    label := some "Wildfire".toList,
    threshold := some (1 / 2) }

/-- A request whose `lat1` field is missing or non-numeric (NaN after
coercion) while the other three coordinates are finite. -/
def badReq : SentinelRequest :=
  { lat1 := none, lon1 := some 20, lat2 := some 5, lon2 := some 15 }

/-- A fully cooperative provider: token granted, process request
succeeds with a three-byte image. -/
def goodEnv : ProviderEnv :=
  { accessToken := some "tok".toList, processOk := true,
    processErrorBody := [], processBytes := [1, 2, 3] }

/-- A provider whose token response has no `access_token` field. -/
def noTokenEnv : ProviderEnv :=
  { accessToken := none, processOk := true,
    processErrorBody := [], processBytes := [] }

/-- A provider that grants a token but rejects the process request
with an error body. -/
def quotaEnv : ProviderEnv :=
  { accessToken := some "tok".toList, processOk := false,
    processErrorBody := "quota exceeded".toList, processBytes := [] }

/-- A one-entry cache directory holding `true-color-1.png`. -/
def dir1 : List CacheEntry := [("true-color-1.png".toList, [0])]

/-! ### Lemmas: string primitives -/

theorem strStartsWith_append (p r : List Char) : strStartsWith (p ++ r) p = true := by
  induction p with
  | nil => cases r <;> rfl
  | cons c cs ih => simp [strStartsWith, ih]

theorem strEndsWith_append (s p : List Char) : strEndsWith (s ++ p) p = true := by
  unfold strEndsWith
  rw [List.reverse_append]
  exact strStartsWith_append _ _

theorem replaceFirst_head (pat repl s : List Char) (h : pat ≠ []) :
    replaceFirst pat repl (pat ++ s) = repl ++ s := by
  match pat, h with
  | p :: ps, _ =>
    rw [List.cons_append, replaceFirst]
    rw [if_pos (by rw [← List.cons_append]; exact strStartsWith_append _ _)]
    rw [← List.cons_append, List.drop_left]

theorem replaceFirst_tail (p : Char) (ps repl s : List Char) (h : p ∉ s) :
    replaceFirst (p :: ps) repl (s ++ (p :: ps)) = s ++ repl := by
  induction s with
  | nil =>
    simpa using replaceFirst_head (p :: ps) repl [] (by simp)
  | cons c cs ih =>
    have hcp : c ≠ p := fun hc => h (hc ▸ List.mem_cons_self c cs)
    rw [List.cons_append, replaceFirst]
    rw [if_neg (by simp [strStartsWith, hcp])]
    rw [ih (fun hmem => h (List.mem_cons_of_mem c hmem)), List.cons_append]

theorem jsSplit_no_sep (sep : Char) (s : List Char) (h : sep ∉ s) :
    jsSplit sep s = [s] := by
  induction s with
  | nil => rfl
  | cons c cs ih =>
    have hc : c ≠ sep := fun hc => h (hc ▸ List.mem_cons_self c cs)
    rw [jsSplit, if_neg hc, ih (fun hmem => h (List.mem_cons_of_mem c hmem))]

theorem jsSplit_append (sep : Char) (a b : List Char) (h : sep ∉ a) :
    jsSplit sep (a ++ sep :: b) = a :: jsSplit sep b := by
  induction a with
  | nil => simp [jsSplit]
  | cons c cs ih =>
    have hc : c ≠ sep := fun hc => h (hc ▸ List.mem_cons_self c cs)
    rw [List.cons_append, jsSplit, if_neg hc,
      ih (fun hmem => h (List.mem_cons_of_mem c hmem))]

/-! ### Lemmas: decimal rendering and `parseInt` -/

theorem natToCharsAux_eq (fuel : Nat) :
    ∀ n acc, n < fuel → natToCharsAux fuel n acc = natChars n ++ acc := by
  induction fuel with
  | zero => intro n acc h; omega
  | succ fuel ih =>
    intro n acc h
    rw [natToCharsAux]
    by_cases h10 : n < 10
    · rw [if_pos h10, natChars, if_pos h10]; rfl
    · rw [if_neg h10, natChars, if_neg h10]
      rw [ih (n / 10) _ (by omega)]
      simp

theorem natToChars_eq (n : Nat) : natToChars n = natChars n := by
  have := natToCharsAux_eq (n + 1) n [] (by omega)
  simpa [natToChars] using this

theorem digitChar_isDigit (n : Nat) (h : n < 10) : isDigit (digitChar n) = true := by
  interval_cases n <;> decide

theorem digitVal_digitChar (n : Nat) (h : n < 10) : digitVal (digitChar n) = n := by
  interval_cases n <;> decide

theorem natChars_digits (n : Nat) : ∀ c ∈ natChars n, isDigit c = true := by
  induction n using Nat.strong_induction_on with
  | _ n ih =>
    intro c hc
    rw [natChars] at hc
    by_cases h10 : n < 10
    · rw [if_pos h10] at hc
      simp at hc
      exact hc ▸ digitChar_isDigit n h10
    · rw [if_neg h10] at hc
      rcases List.mem_append.1 hc with h1 | h2
      · exact ih (n / 10) (Nat.div_lt_self (by omega) (by omega)) c h1
      · simp at h2
        exact h2 ▸ digitChar_isDigit (n % 10) (Nat.mod_lt _ (by omega))

theorem natChars_ne_nil (n : Nat) : natChars n ≠ [] := by
  rw [natChars]
  by_cases h10 : n < 10
  · rw [if_pos h10]; simp
  · rw [if_neg h10]; simp

theorem decVal_natChars (n : Nat) : decVal (natChars n) = n := by
  induction n using Nat.strong_induction_on with
  | _ n ih =>
    rw [natChars]
    by_cases h10 : n < 10
    · rw [if_pos h10]
      simp [decVal, digitVal_digitChar n h10]
    · rw [if_neg h10]
      unfold decVal
      rw [List.foldl_append]
      have := ih (n / 10) (Nat.div_lt_self (by omega) (by omega))
      unfold decVal at this
      rw [this]
      simp [digitVal_digitChar (n % 10) (Nat.mod_lt _ (by omega))]
      omega

theorem isDigit_ne (c d : Char) (hc : isDigit c = true) (hd : isDigit d = false) :
    c ≠ d := fun h => by rw [h, hd] at hc; cases hc

theorem isDigit_not_ws (c : Char) (hc : isDigit c = true) :
    c ∉ jsWhitespace := by
  intro hmem
  fin_cases hmem <;> simp_all [isDigit]

theorem hexMark_digits (s : List Char) (h : ∀ c ∈ s, isDigit c = true) :
    hexMark s = false := by
  match s with
  | [] => rfl
  | [c] => rfl
  | c0 :: c1 :: rest =>
    have h1 : isDigit c1 = true := h c1 (by simp)
    have hx : c1 ≠ 'x' := isDigit_ne c1 'x' h1 (by decide)
    have hX : c1 ≠ 'X' := isDigit_ne c1 'X' h1 (by decide)
    simp [hexMark, hx, hX]

theorem parseIntCore_digits (sign : Int) (s : List Char)
    (hd : ∀ c ∈ s, isDigit c = true) (hne : s ≠ []) :
    parseIntCore sign s = some (sign * decVal s) := by
  unfold parseIntCore
  rw [if_neg (by simp [hexMark_digits s hd])]
  unfold parseDigits
  have htw : s.takeWhile isDigit = s := List.takeWhile_eq_self_iff.2 hd
  simp only [htw]
  rw [if_neg (by simpa using hne)]
  rfl

theorem parseIntJS_digits (s : List Char)
    (hd : ∀ c ∈ s, isDigit c = true) (hne : s ≠ []) :
    parseIntJS s = some ((decVal s : Nat) : Int) := by
  match s, hne with
  | c :: cs, _ =>
    have hc : isDigit c = true := hd c (by simp)
    unfold parseIntJS
    rw [List.dropWhile_cons_of_neg (by simpa using isDigit_not_ws c hc)]
    simp only [parseSigned]
    rw [if_neg (isDigit_ne c '-' hc (by decide)),
      if_neg (isDigit_ne c '+' hc (by decide))]
    rw [parseIntCore_digits 1 (c :: cs) hd (by simp)]
    simp

theorem parseIntJS_natChars (n : Nat) : parseIntJS (natChars n) = some (n : Int) := by
  rw [parseIntJS_digits (natChars n) (natChars_digits n) (natChars_ne_nil n),
    decVal_natChars]

theorem parseIntJS_neg_natChars (n : Nat) :
    parseIntJS ('-' :: natChars n) = some (-(n : Int)) := by
  unfold parseIntJS
  rw [List.dropWhile_cons_of_neg (by decide)]
  simp only [parseSigned, if_true]
  rw [parseIntCore_digits (-1) (natChars n) (natChars_digits n) (natChars_ne_nil n),
    decVal_natChars]
  simp

theorem parseIntJS_intToChars (k : Int) : parseIntJS (intToChars k) = some k := by
  unfold intToChars
  by_cases hk : k < 0
  · rw [if_pos hk, natToChars_eq, parseIntJS_neg_natChars]
    congr 1
    omega
  · rw [if_neg hk, natToChars_eq, parseIntJS_natChars]
    congr 1
    omega

theorem mem_intToChars (k : Int) (c : Char) (hc : c ∈ intToChars k) :
    isDigit c = true ∨ c = '-' := by
  unfold intToChars at hc
  by_cases hk : k < 0
  · rw [if_pos hk, natToChars_eq] at hc
    rcases List.mem_cons.1 hc with h | h
    · exact Or.inr h
    · exact Or.inl (natChars_digits _ c h)
  · rw [if_neg hk, natToChars_eq] at hc
    exact Or.inl (natChars_digits _ c hc)

theorem dot_not_mem_intToChars (k : Int) : '.' ∉ intToChars k := by
  intro h
  rcases mem_intToChars k '.' h with h1 | h1
  · cases h1
  · cases h1

/-! ### Lemmas: filename suffixes and allocation -/

theorem replace_mkName (k : Int) :
    replaceFirst nameExt [] (replaceFirst namePre [] (mkName k)) = intToChars k := by
  unfold mkName
  rw [List.append_assoc, replaceFirst_head namePre [] _ (by decide)]
  rw [List.nil_append]
  have : nameExt = '.' :: "png".toList := by decide
  rw [this, replaceFirst_tail '.' _ [] _ (dot_not_mem_intToChars k), List.append_nil]

theorem suffixNum_mkName (k : Int) : suffixNum (mkName k) = some k := by
  rw [suffixNum, replace_mkName, parseIntJS_intToChars]

theorem cacheMatch_mkName (k : Int) : cacheMatch (mkName k) = true := by
  unfold cacheMatch mkName
  rw [List.append_assoc]
  rw [strStartsWith_append namePre _]
  rw [← List.append_assoc]
  rw [strEndsWith_append _ nameExt]
  rfl

theorem fileSuffix_mkName (k : Int) : fileSuffix (mkName k) = some k := by
  rw [fileSuffix, if_pos (cacheMatch_mkName k), suffixNum_mkName]

theorem le_listMax (l : List Int) : ∀ x ∈ l, x ≤ listMax l := by
  induction l with
  | nil => intro x hx; cases hx
  | cons a t ih =>
    intro x hx
    match t, hx with
    | [], hx => simp at hx; simp [listMax, hx]
    | b :: t, hx =>
      rw [show listMax (a :: b :: t) = max a (listMax (b :: t)) from rfl]
      rcases List.mem_cons.1 hx with h | h
      · exact h ▸ le_max_left _ _
      · exact le_trans (ih x h) (le_max_right _ _)

theorem mem_cacheNumbers_of (files : List (List Char)) (f : List Char) (k : Int)
    (hf : f ∈ files) (hk : fileSuffix f = some k) : k ∈ cacheNumbers files := by
  unfold fileSuffix at hk
  by_cases hm : cacheMatch f
  · rw [if_pos hm] at hk
    unfold cacheNumbers
    exact List.mem_filterMap.2 ⟨f, List.mem_filter.2 ⟨hf, hm⟩, hk⟩
  · rw [if_neg hm] at hk
    cases hk

theorem lt_nextIndex (files : List (List Char)) (k : Int)
    (hk : k ∈ cacheNumbers files) : k < nextIndex files := by
  unfold nextIndex
  have hne : (cacheNumbers files).isEmpty = false := by
    cases h : cacheNumbers files with
    | nil => rw [h] at hk; cases hk
    | cons a t => simp [h]
  rw [if_neg (by simp [hne])]
  have := le_listMax (cacheNumbers files) k hk
  omega

theorem getNextFilename_not_mem (files : List (List Char)) :
    getNextFilename files ∉ files := by
  intro hmem
  unfold getNextFilename at hmem
  have : nextIndex files ∈ cacheNumbers files :=
    mem_cacheNumbers_of files _ _ hmem (fileSuffix_mkName _)
  exact absurd (lt_nextIndex files _ this) (lt_irrefl _)

theorem writeFile_append (dir : List CacheEntry) (name : List Char)
    (content : List Nat) (h : name ∉ dir.map Prod.fst) :
    writeFile dir name content = dir ++ [(name, content)] := by
  unfold writeFile
  rw [if_neg]
  intro hany
  rcases List.any_eq_true.1 hany with ⟨e, he, heq⟩
  exact h (by
    simp only [List.mem_map]
    exact ⟨e, he, by simpa using heq⟩)

/-! ### Lemmas: base64 -/

theorem b64Val_b64Char_fin : ∀ k : Fin 64, b64Val (b64Char k.val) = k.val := by
  decide

theorem b64Val_b64Char (k : Nat) (h : k < 64) : b64Val (b64Char k) = k :=
  b64Val_b64Char_fin ⟨k, h⟩

theorem b64Char_ne_pad_fin : ∀ k : Fin 64, b64Char k.val ≠ '=' := by
  decide

theorem b64Char_ne_pad (k : Nat) (h : k < 64) : b64Char k ≠ '=' :=
  b64Char_ne_pad_fin ⟨k, h⟩

theorem b64Char_mem (k : Nat) : b64Char k ∈ b64Alphabet := by
  unfold b64Char
  by_cases h : k < b64Alphabet.length
  · rw [List.getD_eq_getElem?_getD, List.getElem?_eq_getElem h]
    exact List.getElem_mem _
  · rw [List.getD_eq_getElem?_getD, List.getElem?_eq_none (by omega)]
    decide

theorem b64Char_ne_comma (k : Nat) : b64Char k ≠ ',' := by
  intro h
  have := b64Char_mem k
  rw [h] at this
  have : (',' ∈ b64Alphabet) = False := by decide
  simp_all

theorem comma_not_mem_b64encode : ∀ l : List Nat, ',' ∉ b64encode l
  | [] => by simp [b64encode]
  | [a] => by
      simp only [b64encode, List.mem_cons, List.not_mem_nil]
      push_neg
      exact ⟨(b64Char_ne_comma _).symm, (b64Char_ne_comma _).symm, by decide, by decide,
        not_false⟩
  | [a, b] => by
      simp only [b64encode, List.mem_cons, List.not_mem_nil]
      push_neg
      exact ⟨(b64Char_ne_comma _).symm, (b64Char_ne_comma _).symm,
        (b64Char_ne_comma _).symm, by decide, not_false⟩
  | a :: b :: c :: rest => by
      simp only [b64encode, List.mem_cons]
      push_neg
      exact ⟨(b64Char_ne_comma _).symm, (b64Char_ne_comma _).symm,
        (b64Char_ne_comma _).symm, (b64Char_ne_comma _).symm,
        comma_not_mem_b64encode rest⟩

theorem b64_roundtrip : ∀ l : List Nat, (∀ b ∈ l, b < 256) →
    b64decode (b64encode l) = l
  | [], _ => rfl
  | [a], h => by
      have ha : a < 256 := h a (by simp)
      rw [b64encode, b64decode]
      rw [if_pos rfl]
      rw [b64Val_b64Char (a / 4) (by omega), b64Val_b64Char (a % 4 * 16) (by omega)]
      congr 1
      omega
  | [a, b], h => by
      have ha : a < 256 := h a (by simp)
      have hb : b < 256 := h b (by simp)
      rw [b64encode, b64decode]
      rw [if_neg (b64Char_ne_pad (b % 16 * 4) (by omega)), if_pos rfl]
      rw [b64Val_b64Char (a / 4) (by omega),
        b64Val_b64Char (a % 4 * 16 + b / 16) (by omega),
        b64Val_b64Char (b % 16 * 4) (by omega)]
      congr 1
      · omega
      · congr 1
        omega
  | a :: b :: c :: rest, h => by
      have ha : a < 256 := h a (by simp)
      have hb : b < 256 := h b (by simp)
      have hc : c < 256 := h c (by simp)
      have hrest : ∀ x ∈ rest, x < 256 := fun x hx => h x (by simp [hx])
      rw [b64encode, b64decode]
      rw [if_neg (b64Char_ne_pad (b % 16 * 4 + c / 64) (by omega)),
        if_neg (b64Char_ne_pad (c % 64) (by omega))]
      rw [b64Val_b64Char (a / 4) (by omega),
        b64Val_b64Char (a % 4 * 16 + b / 16) (by omega),
        b64Val_b64Char (b % 16 * 4 + c / 64) (by omega),
        b64Val_b64Char (c % 64) (by omega)]
      rw [b64_roundtrip rest hrest]
      congr 1
      · omega
      · congr 1
        · omega
        · congr 1
          omega

theorem decode_encode_dataUri (bytes : List Nat) (h : ∀ b ∈ bytes, b < 256) :
    decodeDataUri (dataUriHead ++ b64encode bytes) = bytes := by
  unfold decodeDataUri
  have hsplit : dataUriHead ++ b64encode bytes =
      "data:image/png;base64".toList ++ ',' :: b64encode bytes := by
    rw [show dataUriHead = "data:image/png;base64".toList ++ [','] from by decide]
    simp
  rw [hsplit, jsSplit_append ',' _ _ (by decide),
    jsSplit_no_sep ',' _ (comma_not_mem_b64encode bytes)]
  rw [show (["data:image/png;base64".toList, b64encode bytes].getD 1 [] : List Char)
      = b64encode bytes from rfl]
  exact b64_roundtrip bytes h

theorem listMax_mem (l : List Int) (h : l ≠ []) : listMax l ∈ l := by
  induction l with
  | nil => cases h rfl
  | cons a t ih =>
    match t with
    | [] => simp [listMax]
    | b :: t =>
      rw [show listMax (a :: b :: t) = max a (listMax (b :: t)) from rfl]
      rcases max_choice a (listMax (b :: t)) with h1 | h1
      · rw [h1]; exact List.mem_cons_self _ _
      · rw [h1]; exact List.mem_cons_of_mem _ (ih (by simp))

/-! ### Claims -/

/-- C1, counterexample: a request whose `lat1` is missing / not a finite
number does NOT fail with an input-validation error; the handler
computes a NaN-containing bbox, contacts the provider, and even
succeeds, so the claimed InvalidInputError behaviour is absent. -/
theorem c1_counterexample :
    (POST badReq goodEnv []).1 =
      ApiResponse.ok "/sentinel/true-color-1.png".toList "true-color-1.png".toList
        [some 15, none, some 20, none] ∧
    Event.tokenReq ∈ (POST badReq goodEnv []).2.1 ∧
    Event.processReq ∈ (POST badReq goodEnv []).2.1 ∧
    badReq.lat1 = none := by
  exact ⟨by decide, by decide, by decide, rfl⟩

/-- C1, amended: the route performs no coordinate validation at all —
every request, whatever its coordinates, proceeds to contact the
provider (the token request is always issued); the only guard is the
client-side presence check, which blocks the request exactly when some
coordinate field is the empty string. -/
theorem c1_no_validation_amended :
    (∀ (req : SentinelRequest) (env : ProviderEnv) (dir : List CacheEntry),
      Event.tokenReq ∈ (POST req env dir).2.1) ∧
    (∀ lat1 lon1 lat2 lon2 : List Char,
      fetchSentinelImageSends lat1 lon1 lat2 lon2 = false ↔
        (lat1 = [] ∨ lon1 = [] ∨ lat2 = [] ∨ lon2 = [])) := by
  constructor
  · intro req env dir
    cases h : env.accessToken with
    | none => simp [POST, h]
    | some tok =>
      by_cases ht : tok = []
      · simp [POST, h, ht]
      · cases hf : fetchImage env with
        | error m => simp [POST, h, ht, hf]
        | ok d => simp [POST, h, ht, hf]
  · intro l1 o1 l2 o2
    simp only [fetchSentinelImageSends, Bool.not_eq_false', Bool.or_eq_true,
      List.isEmpty_eq_true]
    tauto

/-- C2: `getNextFilename` returns `true-color-<m+1>.png` where `m` is
the maximum of the parsed integer suffixes of the files matching the
`true-color-<n>.png` convention (0 when none exist); in particular an
empty directory yields `true-color-1.png` and a directory with suffixes
1 and 3 yields `true-color-4.png`, not the gap. -/
theorem c2_next_filename_max_plus_one :
    (∀ files : List (List Char),
      getNextFilename files =
        mkName ((if cacheNumbers files = [] then 0
                 else listMax (cacheNumbers files)) + 1)) ∧
    getNextFilename [] = "true-color-1.png".toList ∧
    getNextFilename ["true-color-1.png".toList, "true-color-3.png".toList] =
      "true-color-4.png".toList := by
  refine ⟨fun files => ?_, by decide, by decide⟩
  unfold getNextFilename nextIndex
  by_cases h : cacheNumbers files = [] <;> simp [h]

/-- C3: for four finite coordinates in either corner order the bbox is
`[minLon, minLat, maxLon, maxLat]` with per-axis min/max, hence always
ordered; and `(lat1,lon1,lat2,lon2) = (10,20,5,15)` yields
`[15, 5, 20, 10]`. -/
theorem c3_bbox_normalized :
    (∀ a b c d : ℚ,
      bboxOf (some a) (some b) (some c) (some d) =
        [some (min b d), some (min a c), some (max b d), some (max a c)] ∧
      bboxOf (some a) (some b) (some c) (some d) =
        bboxOf (some c) (some d) (some a) (some b) ∧
      min b d ≤ max b d ∧ min a c ≤ max a c) ∧
    bboxOf (some 10) (some 20) (some 5) (some 15) =
      [some 15, some 5, some 20, some 10] := by
  constructor
  · intro a b c d
    refine ⟨rfl, ?_, ?_, ?_⟩
    · simp [bboxOf, jsMin, jsMax, min_comm, max_comm]
    · exact le_trans (min_le_left _ _) (le_max_left _ _)
    · exact le_trans (min_le_left _ _) (le_max_left _ _)
  · norm_num [bboxOf, jsMin, jsMax]

/-- C4: when the token response carries no `access_token`, the handler
responds with the authentication error, issues no image-processing
request, and leaves the cache directory untouched. -/
theorem c4_auth_failure_stops_pipeline (req : SentinelRequest) (env : ProviderEnv)
    (dir : List CacheEntry) (h : env.accessToken = none) :
    (POST req env dir).1 = ApiResponse.jsError authFailMsg ∧
    Event.processReq ∉ (POST req env dir).2.1 ∧
    (POST req env dir).2.2 = dir := by
  simp [POST, h]

theorem c4_auth_failure_stops_pipeline_witness :
    (POST badReq noTokenEnv []).1 = ApiResponse.jsError authFailMsg ∧
    Event.processReq ∉ (POST badReq noTokenEnv []).2.1 ∧
    (POST badReq noTokenEnv []).2.2 = [] :=
  c4_auth_failure_stops_pipeline badReq noTokenEnv [] rfl

/-- C5, counterexample: a non-2xx response whose body is valid JSON is
delivered to the caller unchanged — here the empty JSON object — so
the caller does NOT receive an `error`-shaped result. -/
theorem c5_counterexample :
    runWildfireDetection true false (some emptyBody) = some emptyBody ∧
    emptyBody.error = none ∧ emptyBody.probability = none ∧
    emptyBody.prediction = none := ⟨rfl, rfl, rfl, rfl⟩

/-- C5, amended: only an unparseable body (or a failed fetch) produces
the `error` result, which then carries no verdict fields; the HTTP
status code is never consulted, so responses are handled identically
whether or not the status is 2xx. -/
theorem c5_inference_error_amended :
    (∀ statusOk : Bool, runWildfireDetection true statusOk none =
      some { emptyBody with error := some connectFailMsg }) ∧
    (∀ (statusOk : Bool) (body : Option PredictBody),
      runWildfireDetection true statusOk body =
        runWildfireDetection true true body) ∧
    ({ emptyBody with error := some connectFailMsg } : PredictBody).probability = none ∧
    ({ emptyBody with error := some connectFailMsg } : PredictBody).prediction = none ∧
    ({ emptyBody with error := some connectFailMsg } : PredictBody).label = none ∧
    ({ emptyBody with error := some connectFailMsg } : PredictBody).threshold = none :=
  ⟨fun _ => rfl, fun _ _ => rfl, rfl, rfl, rfl, rfl⟩

/-- C6: a successful cache call appends exactly one new entry (leaving
every existing entry byte-for-byte in place), the new name's suffix is
the allocated index, that index strictly exceeds every integer suffix
already present, and the new name collides with no existing file. -/
theorem c6_cache_write_invariant (dir : List CacheEntry) (imageBase64 : List Char) :
    (downloadImage imageBase64 (getNextFilename (dir.map Prod.fst)) dir).1 =
      dir ++ [(getNextFilename (dir.map Prod.fst), decodeDataUri imageBase64)] ∧
    fileSuffix (getNextFilename (dir.map Prod.fst)) =
      some (nextIndex (dir.map Prod.fst)) ∧
    (∀ f k, f ∈ dir.map Prod.fst → fileSuffix f = some k →
      k < nextIndex (dir.map Prod.fst)) ∧
    getNextFilename (dir.map Prod.fst) ∉ dir.map Prod.fst := by
  refine ⟨?_, fileSuffix_mkName _, ?_, getNextFilename_not_mem _⟩
  · unfold downloadImage
    rw [writeFile_append _ _ _ (getNextFilename_not_mem _)]
  · intro f k hf hk
    exact lt_nextIndex _ k (mem_cacheNumbers_of _ f k hf hk)

theorem c6_cache_write_invariant_witness :
    (downloadImage (dataUriHead ++ b64encode [9])
        (getNextFilename (dir1.map Prod.fst)) dir1).1 =
      dir1 ++ [(getNextFilename (dir1.map Prod.fst),
        decodeDataUri (dataUriHead ++ b64encode [9]))] ∧
    fileSuffix "true-color-1.png".toList = some 1 ∧
    (1 : Int) < nextIndex (dir1.map Prod.fst) :=
  ⟨(c6_cache_write_invariant dir1 (dataUriHead ++ b64encode [9])).1,
   by decide,
   (c6_cache_write_invariant dir1 (dataUriHead ++ b64encode [9])).2.2.1
     "true-color-1.png".toList 1 (by decide) (by decide)⟩

/-- C7: when the image-processing response is not successful, the
handler's response is `jsError` carrying exactly the provider's error
body, unmodified. -/
theorem c7_provider_error_propagated (req : SentinelRequest) (env : ProviderEnv)
    (dir : List CacheEntry) (tok : List Char)
    (h1 : env.accessToken = some tok) (h2 : tok ≠ []) (h3 : env.processOk = false) :
    (POST req env dir).1 = ApiResponse.jsError env.processErrorBody ∧
    (POST req env dir).2.2 = dir := by
  simp [POST, h1, h2, fetchImage, h3]

theorem c7_provider_error_propagated_witness :
    (POST badReq quotaEnv []).1 = ApiResponse.jsError quotaEnv.processErrorBody ∧
    (POST badReq quotaEnv []).2.2 = [] :=
  c7_provider_error_propagated badReq quotaEnv [] "tok".toList rfl (by decide) rfl

/-- C8: the interpreter passes any parsed classifier body through to
the caller unchanged and adds nothing; the spec's sample verdict is
delivered with all fields identical and no error field present. -/
theorem c8_verdict_passthrough :
    (∀ (statusOk : Bool) (d : PredictBody),
      runWildfireDetection true statusOk (some d) = some d) ∧
    runWildfireDetection true true (some wildfireVerdict) = some wildfireVerdict ∧
    wildfireVerdict.probability = some (92 / 100) ∧
    wildfireVerdict.prediction = some 1 ∧
    wildfireVerdict.label = some "Wildfire".toList ∧
    wildfireVerdict.threshold = some (1 / 2) ∧
    wildfireVerdict.error = none :=
  ⟨fun _ _ => rfl, rfl, rfl, rfl, rfl, rfl, rfl⟩

/-- C9: the bytes written by `downloadImage` equal the bytes received
from the provider: `fetchImage`'s data URI, decoded by splitting at the
first comma and base64-decoding, round-trips exactly. -/
theorem c9_dataUri_roundtrip (env : ProviderEnv) (h1 : env.processOk = true)
    (h2 : ∀ b ∈ env.processBytes, b < 256) :
    fetchImage env = .ok (dataUriHead ++ b64encode env.processBytes) ∧
    decodeDataUri (dataUriHead ++ b64encode env.processBytes) = env.processBytes :=
  ⟨by simp [fetchImage, h1], decode_encode_dataUri _ h2⟩

theorem c9_dataUri_roundtrip_witness :
    fetchImage goodEnv = .ok (dataUriHead ++ b64encode goodEnv.processBytes) ∧
    decodeDataUri (dataUriHead ++ b64encode goodEnv.processBytes) = goodEnv.processBytes :=
  c9_dataUri_roundtrip goodEnv rfl (by decide)

/-- C10, counterexample: a matching file whose middle parses to a
negative integer drives the next suffix below 1 — with only
`true-color--5.png` present the next filename is `true-color--4.png`,
whose suffix is −4. -/
theorem c10_counterexample :
    getNextFilename ["true-color--5.png".toList] = "true-color--4.png".toList ∧
    fileSuffix "true-color--4.png".toList = some (-4) ∧
    ¬ (1 ≤ (-4 : Int)) := ⟨by decide, by decide, by decide⟩

/-- C10, amended: entries whose middle does not parse (`parseInt` NaN)
are ignored, so a directory with no parseable matching file yields
`true-color-1.png`; and the next suffix is at least 1 whenever no
parsed suffix is negative (it can drop below 1 only via a
negative-suffix file). -/
theorem c10_suffix_allocation_amended :
    (∀ files, cacheNumbers files = [] → getNextFilename files = "true-color-1.png".toList) ∧
    (∀ files, (∀ k ∈ cacheNumbers files, 0 ≤ k) → 1 ≤ nextIndex files) ∧
    getNextFilename ["true-color-x.png".toList] = "true-color-1.png".toList := by
  refine ⟨fun files h => ?_, fun files h => ?_, by decide⟩
  · unfold getNextFilename nextIndex
    rw [h]
    decide
  · unfold nextIndex
    by_cases he : cacheNumbers files = []
    · simp [he]
    · rw [if_neg (by simp [he])]
      have := h (listMax (cacheNumbers files)) (listMax_mem _ he)
      omega

theorem c10_suffix_allocation_amended_witness :
    getNextFilename ["x".toList] = "true-color-1.png".toList ∧
    1 ≤ nextIndex ["true-color-2.png".toList] :=
  ⟨c10_suffix_allocation_amended.1 ["x".toList] (by decide),
   c10_suffix_allocation_amended.2.1 ["true-color-2.png".toList] (by decide)⟩
